import Mathlib

/-!
Verification of the event-digest pipeline (event-digest/main.go).

The Go program is shallowly embedded below:
* machine strings and bytes become `String` / `List UInt8`;
* the filesystem becomes an explicit `FS` value threaded through `DigestFile`;
* fallible operations return `Except GoError _`, where a `panic` in the Go
  code is modelled by an error that the caller never recovers from;
* the `encoding/json` and `compress/gzip` library boundaries are modelled at
  the value level: an event file carries its decompressed bytes together with
  the stream of top-level JSON values those bytes decode to, and a digest
  cache artifact is classified by how `json.Decoder.Decode` treats its
  content (a complete encoded digest, an empty file, or a truncated prefix).

The `+gen`-generated container code (`UsernameSet`, `DigestSlice.SortBy`) is
not part of the main source file; those operations are modelled from the
spec and are marked as such in their doc comments.
-/

/-- Errors surfaced by the Go code.  `panicIndexOutOfRange` models the panic
raised by indexing `dateParts[1]` when the filename regex returns no match;
`eofError` and `unexpectedEOFError` model `io.EOF` / `io.ErrUnexpectedEOF`
from `encoding/json` on empty or truncated input. -/
inductive GoError where
  | ioError
  | eofError
  | unexpectedEOFError
  | unmarshalTypeError
  | panicIndexOutOfRange
deriving DecidableEq

/-- A JSON value, the decode target of `encoding/json` in this program. -/
inductive Json where
  | null
  | bool (b : Bool)
  | num (n : Int)
  | str (s : String)
  | arr (elems : List Json)
  | obj (fields : List (String × Json))

/-- `ActorRecord` from main.go: holds only the actor login (json tag "login"). -/
structure ActorRecord where
  username : String
deriving DecidableEq

/-- `EventRecord` from main.go: one transformed event (json tag "actor"). -/
structure EventRecord where
  actor : ActorRecord
deriving DecidableEq

/-- `strings.ToLower` restricted to the ASCII range used by this program. -/
def goToLower (s : String) : String :=
  String.mk (s.data.map Char.toLower)

/-- Modelled from the spec: `UsernameSet` is `+gen`-generated set code (a
`map[Username]struct\x7b\x7d`) that is not part of main.go.  Per the spec it is a
mutable dedup container of usernames. -/
abbrev UsernameSet := Finset String

/-- Modelled from the spec: the generated `Add` is an idempotent set insert. -/
def UsernameSet.Add (s : UsernameSet) (u : String) : UsernameSet :=
  insert u s

/-- Modelled from the spec: the generated `Clone` returns an independent copy
capturing current membership; in a pure embedding that is the value itself. -/
def UsernameSet.Clone (s : UsernameSet) : UsernameSet := s

/-- Modelled from the spec: the generated `Difference` returns the members
present in the receiver but absent from the argument. -/
def UsernameSet.Difference (s other : UsernameSet) : UsernameSet :=
  s.filter (fun u => u ∉ other)

/-! ## Line counting (`lineCounter`) -/

/-- The 1 MiB read buffer size of `lineCounter`. -/
def chunkSize : Nat := 1024 * 1024

/-- Embeds `lineCounter`: read the stream through a fixed-size buffer,
summing the newline-byte count of each chunk (`bytes.Count(buf[:c], "\n")`);
`io.EOF` (the stream running out) ends the loop successfully.  Each `Read`
returns at most `chunkSize` bytes; the count is over newline *bytes*. -/
def lineCounter (data : List UInt8) : Nat :=
  if data.isEmpty then 0
  else (data.take chunkSize).count 10 + lineCounter (data.drop chunkSize)
termination_by data.length
decreasing_by
  cases data with
  | nil => simp at *
  | cons a l => simp [chunkSize]; omega

/-! ## JSON decoding of event records (`encoding/json` boundary) -/

/-- Embeds `encoding/json` field-name matching for the single-field structs of
this program: an incoming object key selects the struct field when it matches
the field's json tag exactly or case-insensitively (`strings.EqualFold`,
ASCII case here); the exact match is subsumed by the case-insensitive one. -/
def keyMatches (key name : String) : Bool :=
  goToLower key == goToLower name

/-- Embeds unmarshalling a JSON value into `ActorRecord` (field tag "login",
type string): `null` leaves the current value unchanged, an object is scanned
in key order with later matching keys overwriting earlier ones, a string sets
the field, `null` for the field leaves it unchanged, and any other shape is a
type error. -/
def decodeActor (j : Json) (r : ActorRecord) : Except GoError ActorRecord :=
  match j with
  | Json.null => Except.ok r
  | Json.obj fields =>
    fields.foldlM (fun acc kv =>
      if keyMatches kv.1 "login" then
        match kv.2 with
        | Json.str s => Except.ok ⟨s⟩
        | Json.null => Except.ok acc
        | _ => Except.error GoError.unmarshalTypeError
      else Except.ok acc) r
  | _ => Except.error GoError.unmarshalTypeError

/-- Embeds unmarshalling a JSON value into `EventRecord` (field tag "actor"):
starts from the zero value (empty login) and scans object keys in order. -/
def decodeEventRecord (j : Json) : Except GoError EventRecord :=
  match j with
  | Json.null => Except.ok ⟨⟨""⟩⟩
  | Json.obj fields =>
    fields.foldlM (fun acc kv =>
      if keyMatches kv.1 "actor" then
        (decodeActor kv.2 acc.actor).map (fun a => ⟨a⟩)
      else Except.ok acc) ⟨⟨""⟩⟩
  | _ => Except.error GoError.unmarshalTypeError

/-- Embeds `usernameExtractor`: stream-decode one JSON element at a time
(`decoder.More` / `decoder.Decode`); a decode error propagates (the caller
panics); otherwise lower-case the actor login and add it to the live set. -/
def usernameExtractor (evs : List Json) (users : UsernameSet) :
    Except GoError UsernameSet :=
  match evs with
  | [] => Except.ok users
  | j :: rest =>
    match decodeEventRecord j with
    | Except.error e => Except.error e
    | Except.ok r =>
      usernameExtractor rest (users.Add (goToLower r.actor.username))

/-! ## Filename timestamp parsing (`eventFilenameRE`) -/

/-- `\d` of the filename regex: an ASCII digit. -/
def isDigitChar (c : Char) : Bool :=
  decide (48 ≤ c.toNat) && decide (c.toNat ≤ 57)

/-- Numeric value of an ASCII digit (`strconv.Atoi` on one character). -/
def digitVal (c : Char) : Nat := c.toNat - 48

/-- Embeds one match attempt of `eventFilenameRE` =
`(\d!4!)-(\d!2!)-(\d!2!)-(\d!1,2!)` anchored at the head of `s` (the braces
of the counted repetitions are written `!` here): four digit groups separated
by literal hyphens, the last group greedily taking two digits when the next
character is also a digit (Go regexp is leftmost-first with greedy
quantifiers).  Returns the `strconv.Atoi` values of the four groups. -/
def matchDateAt (s : List Char) : Option (Nat × Nat × Nat × Nat) :=
  match s with
  | y1 :: y2 :: y3 :: y4 :: c1 :: m1 :: m2 :: c2 :: d1 :: d2 :: c3 :: h1 :: rest =>
    if isDigitChar y1 && isDigitChar y2 && isDigitChar y3 && isDigitChar y4 &&
        (c1 == '-') && isDigitChar m1 && isDigitChar m2 &&
        (c2 == '-') && isDigitChar d1 && isDigitChar d2 &&
        (c3 == '-') && isDigitChar h1 then
      let year := ((digitVal y1 * 10 + digitVal y2) * 10 + digitVal y3) * 10
        + digitVal y4
      let month := digitVal m1 * 10 + digitVal m2
      let day := digitVal d1 * 10 + digitVal d2
      let hour :=
        match rest with
        | h2 :: _ => if isDigitChar h2 then digitVal h1 * 10 + digitVal h2
                     else digitVal h1
        | [] => digitVal h1
      some (year, month, day, hour)
    else none
  | _ => none

/-- Embeds `eventFilenameRE.FindStringSubmatch` followed by `strconv.Atoi` on
the four capture groups: scan for the leftmost position where the pattern
matches; `none` models `FindStringSubmatch` returning nil. -/
def findDateGroups : List Char → Option (Nat × Nat × Nat × Nat)
  | [] => none
  | c :: rest =>
    match matchDateAt (c :: rest) with
    | some r => some r
    | none => findDateGroups rest

/-- Embeds `filepath.Base` for slash-separated paths as produced by
`filepath.Glob` here: the portion of the path after the last separator. -/
def baseName (path : String) : String :=
  String.mk (path.data.foldl (fun acc c => if c = '/' then [] else acc ++ [c]) [])

/-! ## `time.Date(year, month, day, hour, 0, 0, 0, time.UTC)`

A `time.Time` produced by `time.Date` with zero minutes/seconds and location
UTC is, as a value (for equality, `Unix()` and JSON round-tripping), fully
determined by its Unix seconds, so the embedding represents it as that `Int`.
-/

/-- Embeds `time.Date`'s month normalization (`norm(year, month-1, 12)`):
carries the zero-based month into the year by floored division. -/
def normMonth (year month : Int) : Int × Int :=
  (year + (month - 1).fdiv 12, (month - 1).fmod 12 + 1)

/-- Days from 1970-01-01 of the Gregorian date `(y, m, d)` for a normalized
month `m ∈ [1,12]` (the civil-from-days algorithm); as in `time.Date`, an
out-of-range day is simply added linearly. -/
def daysFromCivil (y m d : Int) : Int :=
  let y2 := if m ≤ 2 then y - 1 else y
  let era := y2.fdiv 400
  let yoe := y2 - era * 400
  let doy := (153 * (m + (if 2 < m then -3 else 9)) + 2).fdiv 5 + d - 1
  let doe := yoe * 365 + yoe.fdiv 4 - yoe.fdiv 100 + doy
  era * 146097 + doe - 719468

/-- Embeds `time.Date(year, month, day, hour, 0, 0, 0, time.UTC)` as the Unix
seconds of the resulting instant. -/
def timeDateUnix (year month day hour : Int) : Int :=
  let ym := normMonth year month
  daysFromCivil ym.1 ym.2 day * 86400 + hour * 3600

/-! ## Digest, filesystem state, and the cache gate -/

/-- `Digest` from main.go: aggregate data for one hour file.  `count` is the
line count (non-negative in every digest this program writes) and `date` the
hour-resolution UTC timestamp as Unix seconds. -/
structure Digest where
  count : Nat
  date : Int
deriving DecidableEq

/-- Decompressed content of one gzip event file, in the two views the two
streaming passes consume: the raw bytes (for `lineCounter`) and the stream of
top-level JSON values those bytes decode to (for `usernameExtractor`). -/
structure EventFile where
  bytes : List UInt8
  events : List Json

/-- Content of a `.digest.json` cache artifact, classified by how
`json.Decoder.Decode` treats it: a complete encoded `Digest`, an empty file
(zero bytes, as left by a crash right after the exclusive create), or a
truncated prefix of a JSON value. -/
inductive ArtifactContent where
  | encoded (d : Digest)
  | empty
  | truncated

/-- The filesystem state the pipeline reads and writes: event files and
digest cache artifacts, as association lists keyed by path (first match
wins, so updating prepends). -/
structure FS where
  eventFiles : List (String × EventFile)
  artifacts : List (String × ArtifactContent)

def FS.lookupEvent (fs : FS) (p : String) : Option EventFile :=
  (fs.eventFiles.find? (fun kv => kv.1 == p)).map (fun kv => kv.2)

def FS.lookupArtifact (fs : FS) (p : String) : Option ArtifactContent :=
  (fs.artifacts.find? (fun kv => kv.1 == p)).map (fun kv => kv.2)

def FS.setArtifact (fs : FS) (p : String) (c : ArtifactContent) : FS :=
  { fs with artifacts := (p, c) :: fs.artifacts }

/-- The cache artifact path: `fmt.Sprintf("%v.digest.json", eventFilePath)`. -/
def digestPath (eventFilePath : String) : String :=
  eventFilePath ++ ".digest.json"

/-- Embeds `readDigest`: open the artifact and `json.Decode` a `Digest` out
of it.  On an empty file `Decode` returns `io.EOF`; on a truncated value it
returns `io.ErrUnexpectedEOF`; either error propagates to the caller. -/
def readDigest (content : ArtifactContent) : Except GoError Digest :=
  match content with
  | ArtifactContent.encoded d => Except.ok d
  | ArtifactContent.empty => Except.error GoError.eofError
  | ArtifactContent.truncated => Except.error GoError.unexpectedEOFError

/-- Embeds `doDigestFile` on the opened event file: count lines over the
decompressed bytes, re-extract usernames from the same stream (a failure
panics), then parse the four date groups out of the base name —
`dateParts[1]` panics with an index-out-of-range when the regex found no
match — and assemble the digest.  The successful digest is also encoded into
the artifact by the caller below. -/
def doDigestFile (eventFilePath : String) (file : EventFile)
    (users : UsernameSet) : Except GoError (Digest × UsernameSet) :=
  let c := lineCounter file.bytes
  match usernameExtractor file.events users with
  | Except.error e => Except.error e
  | Except.ok users2 =>
    match findDateGroups (baseName eventFilePath).data with
    | none => Except.error GoError.panicIndexOutOfRange
    | some (y, m, d, h) =>
      Except.ok
        ({ count := c,
           date := timeDateUnix (Int.ofNat y) (Int.ofNat m) (Int.ofNat d)
             (Int.ofNat h) },
         users2)

/-- Embeds `DigestFile`: exclusively create `<path>.digest.json`.  If it
already exists (`os.IsExist`), decode and return the stored digest — the
event file is not reopened and the username set is untouched.  Otherwise the
freshly created (still empty) artifact is owned by this call: compute the
digest, store it in the artifact, and return it together with the updated
filesystem and username set.  Any error aborts the run (`main` panics). -/
def DigestFile (eventFilePath : String) (fs : FS) (users : UsernameSet) :
    Except GoError (Digest × FS × UsernameSet) :=
  match fs.lookupArtifact (digestPath eventFilePath) with
  | some content =>
    match readDigest content with
    | Except.ok d => Except.ok (d, fs, users)
    | Except.error e => Except.error e
  | none =>
    match fs.lookupEvent eventFilePath with
    | none => Except.error GoError.ioError
    | some file =>
      match doDigestFile eventFilePath file users with
      | Except.ok (d, users2) =>
        Except.ok
          (d, fs.setArtifact (digestPath eventFilePath)
            (ArtifactContent.encoded d), users2)
      | Except.error e => Except.error e

/-! ## Known-users store and summary writer -/

/-- `strings.Split(s, "\n")`: the segments of `s` between newline characters;
always at least one (possibly empty) segment. -/
def goSplitNl : List Char → List (List Char)
  | [] => [[]]
  | c :: rest =>
    match goSplitNl rest with
    | [] => [[]]
    | g :: gs => if c = '\n' then [] :: g :: gs else (c :: g) :: gs

/-- Embeds `readKnownUsers`: when `users.txt` could be read (`content = some
buf`), split its content on newlines and add every segment verbatim to a
fresh set; a read failure is non-fatal and yields the empty set. -/
def readKnownUsers (content : Option String) : UsernameSet :=
  match content with
  | some buf =>
    (goSplitNl buf.data).foldl (fun us u => us.Add (String.mk u)) ∅
  | none => ∅

/-- Modelled from the spec: `DigestSlice.SortBy` is `+gen`-generated slice
code not part of main.go; per the spec it sorts the digests ascending by the
supplied ordering (ties broken arbitrarily).  Sorting a list by the strict
`less` predicate is sorting by the total preorder `fun x y => !(less y x)`. -/
def DigestSlice.SortBy (digests : List Digest) (less : Digest → Digest → Bool) :
    List Digest :=
  List.insertionSort (fun x y => (!(less y x)) = true) digests

/-- What `makeSummary` writes: the full content of `summary.json` and the set
of usernames appended to `users.txt` (map iteration order is unspecified, so
the appended lines are recorded as a set). -/
structure SummaryResult where
  summaryContent : List Digest
  appendedUsers : Finset String
deriving DecidableEq

/-- Embeds `makeSummary`: sort the collected digests by `Date.Unix()`
ascending, truncate-and-rewrite `summary.json` with the sorted list
(`os.Create` discards `oldSummary` entirely), and append the new users to
`users.txt`. -/
def makeSummary (oldSummary : Option (List Digest)) (digests : List Digest)
    (newUsers : UsernameSet) : SummaryResult :=
  { summaryContent :=
      DigestSlice.SortBy digests (fun x y => decide (x.date < y.date)),
    appendedUsers := newUsers }

/-! ## Line-stream constructions used to state the line-count properties -/

/-- A decompressed stream consisting of the given lines, each line terminated
by a newline byte. -/
def terminatedStream (ls : List (List UInt8)) : List UInt8 :=
  (ls.map (fun l => l ++ [10])).flatten

/-- A decompressed stream consisting of the given lines separated by newline
bytes, the last line not newline-terminated. -/
def separatedStream : List (List UInt8) → List UInt8
  | [] => []
  | [l] => l
  | l :: l2 :: rest => l ++ 10 :: separatedStream (l2 :: rest)

/-! ## Decidability of result comparisons -/

instance {e a : Type} [DecidableEq e] [DecidableEq a] :
    DecidableEq (Except e a)
  | Except.error e1, Except.error e2 =>
    if h : e1 = e2 then isTrue (by rw [h]) else isFalse (by simp [h])
  | Except.error _, Except.ok _ => isFalse (by simp)
  | Except.ok _, Except.error _ => isFalse (by simp)
  | Except.ok a1, Except.ok a2 =>
    if h : a1 = a2 then isTrue (by rw [h]) else isFalse (by simp [h])

/-! ## Concrete filesystems used to instantiate the cache-gate theorems -/

/-- A filesystem after a fully successful digest of `f.json.gz`: the event
file exists and its artifact holds the encoded digest. -/
def fsHitExample : FS :=
  { eventFiles := [("f.json.gz", { bytes := [97, 10], events := [] })],
    artifacts := [("f.json.gz.digest.json", ArtifactContent.encoded ⟨5, 0⟩)] }

/-- A filesystem as left by a crash between artifact creation and artifact
population: the event file exists and its digest artifact exists but holds
zero bytes. -/
def fsCrashExample : FS :=
  { eventFiles := [("2024-01-05-9.json.gz", { bytes := [97, 10], events := [] })],
    artifacts := [("2024-01-05-9.json.gz.digest.json", ArtifactContent.empty)] }

/-! ## Helper lemmas -/

theorem lineCounter_eq_count (data : List UInt8) :
    lineCounter data = data.count 10 := by
  induction data using lineCounter.induct with
  | case1 data h => rw [lineCounter]; simp_all
  | case2 data h ih =>
    rw [lineCounter, if_neg (by simp_all)]
    rw [ih]
    rw [← List.count_append]
    rw [List.take_append_drop]

theorem count_terminatedStream (ls : List (List UInt8))
    (h : ∀ l ∈ ls, (10 : UInt8) ∉ l) :
    (terminatedStream ls).count 10 = ls.length := by
  induction ls with
  | nil => rfl
  | cons l rest ih =>
    have hl : l.count 10 = 0 :=
      List.count_eq_zero.mpr (h l (List.mem_cons_self l rest))
    have hrest := ih (fun x hx => h x (List.mem_cons_of_mem l hx))
    simp [terminatedStream] at hrest ⊢
    simp [List.count_append, hl, hrest]

theorem count_separatedStream (ls : List (List UInt8))
    (h : ∀ l ∈ ls, (10 : UInt8) ∉ l) :
    (separatedStream ls).count 10 = ls.length - 1 := by
  induction ls with
  | nil => rfl
  | cons l rest ih =>
    cases rest with
    | nil =>
      have hl : l.count 10 = 0 :=
        List.count_eq_zero.mpr (h l (List.mem_cons_self l []))
      simp [separatedStream, hl]
    | cons l2 rest2 =>
      have hl : l.count 10 = 0 :=
        List.count_eq_zero.mpr (h l (List.mem_cons_self l (l2 :: rest2)))
      have hrest := ih (fun x hx => h x (List.mem_cons_of_mem l hx))
      simp [separatedStream, List.count_append, List.count_cons, hl, hrest]

theorem goSplitNl_ne_nil (xs : List Char) : goSplitNl xs ≠ [] := by
  cases xs with
  | nil => simp [goSplitNl]
  | cons c rest =>
    simp only [goSplitNl]
    cases goSplitNl rest with
    | nil => simp
    | cons g gs =>
      by_cases hc : c = '\n' <;> simp [hc]

theorem goSplitNl_append_newline (xs : List Char) :
    goSplitNl (xs ++ ['\n']) = goSplitNl xs ++ [[]] := by
  induction xs with
  | nil => rfl
  | cons c rest ih =>
    rcases hg : goSplitNl rest with _ | ⟨g, gs⟩
    · exact absurd hg (goSplitNl_ne_nil rest)
    · simp only [List.cons_append, goSplitNl, List.append_eq]
      rw [ih, hg]
      by_cases hc : c = '\n' <;> simp [hc]

theorem mem_foldl_Add (l : List (List Char)) (us : UsernameSet) (u : String) :
    u ∈ l.foldl (fun acc g => acc.Add (String.mk g)) us ↔
      u ∈ us ∨ ∃ g ∈ l, u = String.mk g := by
  induction l generalizing us with
  | nil => simp
  | cons g rest ih =>
    rw [List.foldl_cons, ih]
    simp only [UsernameSet.Add, Finset.mem_insert, List.mem_cons]
    constructor
    · rintro (⟨h1 | h2⟩ | ⟨g2, hg2, rfl⟩)
      · exact Or.inr ⟨g, Or.inl rfl, h1⟩
      · exact Or.inl h2
      · exact Or.inr ⟨g2, Or.inr hg2, rfl⟩
    · rintro (h1 | ⟨g2, hg2 | hg2, rfl⟩)
      · exact Or.inl (Or.inr h1)
      · exact Or.inl (Or.inl (by rw [hg2]))
      · exact Or.inr ⟨g2, hg2, rfl⟩

theorem lookupArtifact_setArtifact (fs : FS) (p : String) (c : ArtifactContent) :
    (fs.setArtifact p c).lookupArtifact p = some c := by
  simp [FS.setArtifact, FS.lookupArtifact, List.find?]

theorem doDigestFile_eq (path : String) (file : EventFile)
    (users : UsernameSet) :
    doDigestFile path file users =
      match usernameExtractor file.events users with
      | Except.error e => Except.error e
      | Except.ok users2 =>
        match findDateGroups (baseName path).data with
        | none => Except.error GoError.panicIndexOutOfRange
        | some (y, m, d, h) =>
          Except.ok
            ({ count := file.bytes.count 10,
               date := timeDateUnix (Int.ofNat y) (Int.ofNat m) (Int.ofNat d)
                 (Int.ofNat h) },
             users2) := by
  simp only [doDigestFile, lineCounter_eq_count]

theorem foldlM_actor_no_match (fields : List (String × Json))
    (acc : EventRecord)
    (h : ∀ kv ∈ fields, keyMatches kv.1 "actor" = false) :
    fields.foldlM (fun acc kv =>
        if keyMatches kv.1 "actor" then
          (decodeActor kv.2 acc.actor).map (fun a => ⟨a⟩)
        else Except.ok acc) acc = Except.ok acc := by
  induction fields generalizing acc with
  | nil => rfl
  | cons kv rest ih =>
    have hkv := h kv (List.mem_cons_self kv rest)
    rw [List.foldlM_cons]
    simp only [hkv, Bool.false_eq_true, if_false]
    show rest.foldlM _ acc = Except.ok acc
    exact ih acc (fun kv2 hkv2 => h kv2 (List.mem_cons_of_mem kv hkv2))

/-! ## Claim theorems -/

/-- C1: a second `DigestFile` call on a path whose first call succeeded
returns the identical `Digest`, leaves the filesystem unchanged, and adds no
usernames to whatever live `UsernameSet` is passed to it (the returned set is
exactly the one passed in).  This covers both a first call that computed the
digest freshly (creating the artifact) and one that was itself a cache hit. -/
theorem DigestFile_idempotent (path : String) (fs : FS) (users : UsernameSet)
    (d : Digest) (fs2 : FS) (users2 : UsernameSet)
    (h : DigestFile path fs users = Except.ok (d, fs2, users2)) :
    ∀ users3 : UsernameSet,
      DigestFile path fs2 users3 = Except.ok (d, fs2, users3) := by
  intro users3
  rcases hl : fs.lookupArtifact (digestPath path) with _ | content
  · rcases he : fs.lookupEvent path with _ | file
    · simp [DigestFile, hl, he] at h
    · rcases hd : doDigestFile path file users with e | p2
      · simp [DigestFile, hl, he, hd] at h
      · obtain ⟨d0, us2⟩ := p2
        simp only [DigestFile, hl, he, hd, Except.ok.injEq, Prod.mk.injEq] at h
        obtain ⟨rfl, rfl, rfl⟩ := h
        simp [DigestFile, lookupArtifact_setArtifact, readDigest]
  · rcases hr : readDigest content with e | d0
    · simp [DigestFile, hl, hr] at h
    · simp only [DigestFile, hl, hr, Except.ok.injEq, Prod.mk.injEq] at h
      obtain ⟨rfl, rfl, rfl⟩ := h
      simp [DigestFile, hl, hr]

/-- C1 witness: instantiates the idempotence theorem on a concrete
filesystem whose artifact for `f.json.gz` is already populated, with a
different live set on the second call. -/
theorem DigestFile_idempotent_witness :
    DigestFile "f.json.gz" fsHitExample {"x"}
      = Except.ok (⟨5, 0⟩, fsHitExample, {"x"}) :=
  DigestFile_idempotent "f.json.gz" fsHitExample ∅ ⟨5, 0⟩ fsHitExample ∅
    (by rfl) {"x"}

/-- C2 counterexample: a decompressed stream of one line (`"a"`, byte 97)
whose last line is not newline-terminated; `lineCounter` reports 0, not the
line count 1, refuting the claim that both the newline-terminated and the
unterminated stream of N lines report N. -/
theorem lineCounter_unterminated_cex :
    lineCounter (separatedStream [[97]]) = 0 ∧
    lineCounter (separatedStream [[97]]) ≠ 1 := by
  have h : lineCounter (separatedStream [[97]]) = 0 := by
    rw [show separatedStream [[97]] = [97] from rfl, lineCounter_eq_count]
    decide
  exact ⟨h, by rw [h]; decide⟩

/-- C2 (amended): for a stream of N newline-free lines, `lineCounter` reports
N when every line (in particular the last) is newline-terminated, and N − 1
when the last line is not newline-terminated; end-of-stream terminates the
count in both cases (the embedding is a total function: the Go loop breaks
successfully on `io.EOF`). -/
theorem lineCounter_line_report (ls : List (List UInt8))
    (h : ∀ l ∈ ls, (10 : UInt8) ∉ l) :
    lineCounter (terminatedStream ls) = ls.length ∧
    lineCounter (separatedStream ls) = ls.length - 1 := by
  rw [lineCounter_eq_count, lineCounter_eq_count]
  exact ⟨count_terminatedStream ls h, count_separatedStream ls h⟩

/-- C2 witness: two lines (`"a"`, `"b"`); the terminated stream reports 2 and
the unterminated one reports 1. -/
theorem lineCounter_line_report_witness :
    lineCounter (terminatedStream [[97], [98]]) = 2 ∧
    lineCounter (separatedStream [[97], [98]]) = 1 :=
  ⟨(lineCounter_line_report [[97], [98]] (by decide)).1,
   (lineCounter_line_report [[97], [98]] (by decide)).2⟩

/-- C5: `Difference` returns exactly the members of the receiver absent from
the argument; in particular, with snapshot `{alice, bob}` and post-run live
set `{alice, carol, dave}`, `liveSet.Difference(snapshot)` is exactly
`{carol, dave}`. -/
theorem usernameSet_difference_exact :
    (∀ (s other : UsernameSet) (u : String),
      u ∈ s.Difference other ↔ u ∈ s ∧ u ∉ other) ∧
    UsernameSet.Difference {"alice", "carol", "dave"} {"alice", "bob"}
      = {"carol", "dave"} := by
  refine ⟨?_, by decide⟩
  intro s other u
  simp [UsernameSet.Difference]

/-- C3: when the base name matches the four-group numeric pattern, the fresh
digest's date is the hour-resolution UTC timestamp built from the four
groups; in particular the base name `2024-01-05-9.json.gz` parses to groups
(2024, 1, 5, 9) and the resulting timestamp is Unix second 1704445200, i.e.
2024-01-05T09:00:00Z. -/
theorem doDigestFile_date_from_name :
    (findDateGroups (baseName "2024-01-05-9.json.gz").data
        = some (2024, 1, 5, 9) ∧
      timeDateUnix 2024 1 5 9 = 1704445200) ∧
    (∀ (path : String) (file : EventFile) (users : UsernameSet)
        (y m d h : Nat) (dg : Digest) (users2 : UsernameSet),
      findDateGroups (baseName path).data = some (y, m, d, h) →
      doDigestFile path file users = Except.ok (dg, users2) →
      dg.date = timeDateUnix (Int.ofNat y) (Int.ofNat m) (Int.ofNat d)
        (Int.ofNat h)) := by
  refine ⟨⟨by decide, by decide⟩, ?_⟩
  intro path file users y m d h dg users2 hg hok
  rcases hx : usernameExtractor file.events users with e | us2
  · simp [doDigestFile, hx] at hok
  · simp only [doDigestFile, hx, hg, Except.ok.injEq, Prod.mk.injEq] at hok
    obtain ⟨rfl, rfl⟩ := hok
    rfl

/-- C3 witness: the fresh digest of an event file named
`2024-01-05-9.json.gz` carries the date 1704445200 = 2024-01-05T09:00:00Z. -/
theorem doDigestFile_date_from_name_witness :
    doDigestFile "2024-01-05-9.json.gz" { bytes := [], events := [] } ∅
        = Except.ok (⟨0, 1704445200⟩, ∅) ∧
    (⟨0, 1704445200⟩ : Digest).date
      = timeDateUnix (Int.ofNat 2024) (Int.ofNat 1) (Int.ofNat 5)
          (Int.ofNat 9) := by
  have hok : doDigestFile "2024-01-05-9.json.gz" { bytes := [], events := [] } ∅
      = Except.ok (⟨0, 1704445200⟩, ∅) := by
    rw [doDigestFile_eq]; decide
  exact ⟨hok,
    doDigestFile_date_from_name.2 "2024-01-05-9.json.gz"
      { bytes := [], events := [] } ∅ 2024 1 5 9 ⟨0, 1704445200⟩ ∅
      (by decide) hok⟩

/-- C4: when the base name does not match the four-group pattern — in
particular `2024-01-05.json.gz`, which is missing the hour group — the fresh
digest computation never returns a `Digest`: it ends in an error (the
`dateParts[1]` panic, or an earlier extraction failure), aborting the run. -/
theorem doDigestFile_unparsable_name_aborts :
    (findDateGroups (baseName "2024-01-05.json.gz").data = none) ∧
    (∀ (path : String) (file : EventFile) (users : UsernameSet),
      findDateGroups (baseName path).data = none →
      ∃ e, doDigestFile path file users = Except.error e) := by
  refine ⟨by decide, ?_⟩
  intro path file users hn
  rcases hx : usernameExtractor file.events users with e | us2
  · exact ⟨e, by simp [doDigestFile, hx]⟩
  · exact ⟨GoError.panicIndexOutOfRange, by simp [doDigestFile, hx, hn]⟩

/-- C4 witness: digesting a file whose base name is `2024-01-05.json.gz`
aborts with an error. -/
theorem doDigestFile_unparsable_name_aborts_witness :
    ∃ e, doDigestFile "2024-01-05.json.gz" { bytes := [], events := [] } ∅
      = Except.error e :=
  doDigestFile_unparsable_name_aborts.2 "2024-01-05.json.gz"
    { bytes := [], events := [] } ∅ (by decide)

/-- C6: every username the extractor adds to the live set is the lowercased
actor login, so two records whose logins differ only in case contribute a
single member; in particular the stream with logins "Alice" and "alice"
yields exactly the set containing "alice". -/
theorem usernameExtractor_lowercase :
    (usernameExtractor
        [Json.obj [("actor", Json.obj [("login", Json.str "Alice")])],
         Json.obj [("actor", Json.obj [("login", Json.str "alice")])]] ∅
      = Except.ok {"alice"}) ∧
    (∀ (evs : List Json) (users users2 : UsernameSet),
      usernameExtractor evs users = Except.ok users2 →
      ∀ u ∈ users2, u ∈ users ∨
        ∃ j ∈ evs, ∃ r, decodeEventRecord j = Except.ok r ∧
          u = goToLower r.actor.username) := by
  constructor
  · decide
  · intro evs
    induction evs with
    | nil =>
      intro users users2 h u hu
      simp only [usernameExtractor, Except.ok.injEq] at h
      subst h
      exact Or.inl hu
    | cons j rest ih =>
      intro users users2 h u hu
      rcases hd : decodeEventRecord j with e | r
      · simp [usernameExtractor, hd] at h
      · simp only [usernameExtractor, hd] at h
        rcases ih _ _ h u hu with h1 | ⟨j2, hj2, r2, hr2, hu2⟩
        · rcases Finset.mem_insert.mp (by simpa [UsernameSet.Add] using h1)
            with h2 | h2
          · exact Or.inr ⟨j, List.mem_cons_self j rest, r, hd, h2⟩
          · exact Or.inl h2
        · exact Or.inr ⟨j2, List.mem_cons_of_mem j hj2, r2, hr2, hu2⟩

/-- C6 witness: a stream with the single login "Alice", starting from a set
already containing "alice": the only member is in the set or is the
lowercased login of a stream record. -/
theorem usernameExtractor_lowercase_witness :
    usernameExtractor
        [Json.obj [("actor", Json.obj [("login", Json.str "Alice")])]]
        {"alice"} = Except.ok {"alice"} ∧
    ("alice" ∈ ({"alice"} : UsernameSet) ∨
      ∃ j ∈ [Json.obj [("actor", Json.obj [("login", Json.str "Alice")])]],
        ∃ r, decodeEventRecord j = Except.ok r ∧
          "alice" = goToLower r.actor.username) :=
  ⟨by decide,
   usernameExtractor_lowercase.2
     [Json.obj [("actor", Json.obj [("login", Json.str "Alice")])]]
     {"alice"} {"alice"} (by decide) "alice" (by decide)⟩

/-- C10: a JSON element that is an object with no actor field decodes to the
zero-value record, so the extractor neither skips it nor fails: it adds the
empty-string username to the live set; likewise an element whose actor login
is the empty string. -/
theorem usernameExtractor_missing_login :
    (∀ (fields : List (String × Json)) (users : UsernameSet),
      (∀ kv ∈ fields, keyMatches kv.1 "actor" = false) →
      usernameExtractor [Json.obj fields] users
        = Except.ok (users.Add "")) ∧
    (∀ users : UsernameSet,
      usernameExtractor
          [Json.obj [("actor", Json.obj [("login", Json.str "")])]] users
        = Except.ok (users.Add "")) := by
  constructor
  · intro fields users h
    have hdec : decodeEventRecord (Json.obj fields) = Except.ok ⟨⟨""⟩⟩ :=
      foldlM_actor_no_match fields ⟨⟨""⟩⟩ h
    simp [usernameExtractor, hdec, goToLower]
  · intro users
    rfl

/-- C10 witness: an event object with a single (non-actor) field, added to
the empty live set, yields the set containing the empty-string username. -/
theorem usernameExtractor_missing_login_witness :
    usernameExtractor [Json.obj [("id", Json.num 3)]] ∅
      = Except.ok (UsernameSet.Add ∅ "") :=
  usernameExtractor_missing_login.1 [("id", Json.num 3)] ∅ (by decide)

/-- C7: the summary artifact content is the complete collected digest list
sorted ascending by date, and it is independent of any previous summary
content (fully replaced); in particular digests dated [2024-01-02,
2024-01-01] are written out as [2024-01-01, 2024-01-02]. -/
theorem makeSummary_sorted_by_date :
    (∀ (old : Option (List Digest)) (digests : List Digest)
        (newUsers : UsernameSet),
      ((makeSummary old digests newUsers).summaryContent.Perm digests ∧
        (makeSummary old digests newUsers).summaryContent.Pairwise
          (fun x y => x.date ≤ y.date)) ∧
      ∀ old2, makeSummary old2 digests newUsers
        = makeSummary old digests newUsers) ∧
    (makeSummary none
        [{ count := 7, date := timeDateUnix 2024 1 2 0 },
         { count := 3, date := timeDateUnix 2024 1 1 0 }] ∅).summaryContent
      = [{ count := 3, date := timeDateUnix 2024 1 1 0 },
         { count := 7, date := timeDateUnix 2024 1 2 0 }] := by
  constructor
  · intro old digests newUsers
    refine ⟨⟨?_, ?_⟩, fun old2 => rfl⟩
    · exact List.perm_insertionSort _ digests
    · haveI ht : IsTrans Digest
          (fun x y => (!(decide (y.date < x.date))) = true) := by
        constructor
        intro a b c hab hbc
        simp only [Bool.not_eq_eq_eq_not, Bool.not_true, decide_eq_false_iff_not,
          Int.not_lt] at *
        omega
      haveI hto : IsTotal Digest
          (fun x y => (!(decide (y.date < x.date))) = true) := by
        constructor
        intro a b
        simp only [Bool.not_eq_eq_eq_not, Bool.not_true, decide_eq_false_iff_not,
          Int.not_lt]
        omega
      have hs := List.sorted_insertionSort
        (fun x y : Digest => (!(decide (y.date < x.date))) = true) digests
      refine List.Pairwise.imp ?_ hs
      intro a b hab
      simpa [Int.not_lt] using hab
  · decide

/-- C8 counterexample: a filesystem whose cache artifact for
`2024-01-05-9.json.gz` exists but is empty (the state a crash between
artifact creation and population leaves behind).  The later run's
`DigestFile` call does not return the decoded `Digest`: the decode fails
with `io.EOF` and the error aborts the run, refuting the claim that the call
treats the artifact as a valid cache hit without aborting. -/
theorem DigestFile_crash_artifact_cex :
    DigestFile "2024-01-05-9.json.gz" fsCrashExample ∅
      = Except.error GoError.eofError := rfl

/-- C8 (amended): an existing-but-empty (or truncated) cache artifact still
routes `DigestFile` down the cache-hit path — the digest is not recomputed
and no usernames are extracted — but decoding the artifact fails (`io.EOF`
for an empty file, `io.ErrUnexpectedEOF` for a truncated one), so the call
returns an error and the run aborts instead of returning a Digest. -/
theorem DigestFile_crash_artifact_aborts :
    ∀ (path : String) (fs : FS) (users : UsernameSet),
      (fs.lookupArtifact (digestPath path) = some ArtifactContent.empty →
        DigestFile path fs users = Except.error GoError.eofError) ∧
      (fs.lookupArtifact (digestPath path) = some ArtifactContent.truncated →
        DigestFile path fs users
          = Except.error GoError.unexpectedEOFError) := by
  intro path fs users
  constructor <;> intro h <;> simp [DigestFile, h, readDigest]

/-- C8 witness: instantiates the amended theorem on a concrete filesystem
with a truncated artifact. -/
theorem DigestFile_crash_artifact_aborts_witness :
    DigestFile "x.json.gz"
        { eventFiles := [],
          artifacts := [("x.json.gz.digest.json", ArtifactContent.truncated)] }
        ∅
      = Except.error GoError.unexpectedEOFError :=
  (DigestFile_crash_artifact_aborts "x.json.gz"
    { eventFiles := [],
      artifacts := [("x.json.gz.digest.json", ArtifactContent.truncated)] }
    ∅).2 (by rfl)

/-- C9: when `users.txt` is readable, `readKnownUsers` contains exactly the
newline-separated segments of its content, verbatim (no lowercasing on
load); consequently any content ending in a newline puts the empty-string
username in the set, and a mixed-case segment such as "Alice" is kept
as-is. -/
theorem readKnownUsers_verbatim :
    (∀ (content : String) (u : String),
      u ∈ readKnownUsers (some content) ↔
        ∃ seg ∈ goSplitNl content.data, u = String.mk seg) ∧
    (∀ (content : String) (l : List Char), content.data = l ++ ['\n'] →
      "" ∈ readKnownUsers (some content)) ∧
    "Alice" ∈ readKnownUsers (some "Alice\nbob\n") := by
  have hmem : ∀ (content : String) (u : String),
      u ∈ readKnownUsers (some content) ↔
        ∃ seg ∈ goSplitNl content.data, u = String.mk seg := by
    intro content u
    simp [readKnownUsers, mem_foldl_Add]
  refine ⟨hmem, ?_, by decide⟩
  intro content l hl
  rw [hmem]
  refine ⟨[], ?_, rfl⟩
  rw [hl, goSplitNl_append_newline]
  exact List.mem_append_right _ (List.mem_singleton.mpr rfl)

/-- C9 witness: the content `"a\n"` ends in a newline, so the loaded set
contains the empty-string username. -/
theorem readKnownUsers_verbatim_witness :
    "" ∈ readKnownUsers (some "a\n") :=
  readKnownUsers_verbatim.2.1 "a\n" ['a'] (by decide)
